import Mathlib

/-
Shallow embedding of modules/pam_namespace/pam_namespace.c (Linux-PAM
pam_namespace session module) and verification of its specification.

Strings are modelled as List Char (C strings up to the terminating NUL),
uids as Nat, PAM return codes as Nat, and every external effect (stat,
mkdir, mount, umount, fork, waitpid, pam_get_item, ...) as an explicit
oracle recorded in an environment structure, so that the control flow of
the C functions can be reproduced exactly and executed on concrete inputs.
-/

namespace PamNs

/-! PAM return codes (values from the PAM headers). -/

def PAM_SUCCESS : Nat := 0
def PAM_SERVICE_ERR : Nat := 3
def PAM_SYSTEM_ERR : Nat := 4
def PAM_SESSION_ERR : Nat := 14

/-- Polyinstantiation methods, from the enum in pam_namespace.h
(NONE, USER, TMPDIR, TMPFS, LEVEL, CONTEXT). -/
inductive Method where
  | NONE
  | USER
  | TMPDIR
  | TMPFS
  | LEVEL
  | CONTEXT
deriving DecidableEq, Repr

/-- One polyinstantiated-directory rule, struct polydir_s.
The field instPfx embeds the C field named instance_pre-fix. -/
structure Polydir where
  dir : List Char
  instPfx : List Char
  method : Method
  uids : List Nat
  exclusive : Bool
deriving DecidableEq, Repr

/-! ## Override evaluator (ns_override, pam_namespace.c lines 447-464) -/

/-- Loop body of ns_override: scan the uid array; at the first match
return the negation of exclusive, and after the scan return exclusive. -/
def ns_override_loop (uid : Nat) (excl : Bool) : List Nat → Bool
  | [] => excl
  | u :: rest => if uid = u then !excl else ns_override_loop uid excl rest

/-- Translation of ns_override: true when polyinstantiation is skipped
for this uid on this rule (inverted when the rule is exclusive). -/
def ns_override (p : Polydir) (uid : Nat) : Bool :=
  ns_override_loop uid p.exclusive p.uids

/-! ## String helpers used by the config loader (process_line) -/

/-- Test for a ".." substring, as the strstr(s, "..") checks in
process_line do. -/
def hasDotDot : List Char → Bool
  | [] => false
  | c :: rest => (c == '.' && rest.head? == some '.') || hasDotDot rest

/-- Locate the first occurrence of pat (as strstr does) and return the
text before and after it; none when pat does not occur. -/
def findSub (pat : List Char) : List Char → Option (List Char × List Char)
  | [] => if pat.isEmpty then some ([], []) else none
  | c :: rest =>
    if pat.isPrefixOf (c :: rest) then some ([], (c :: rest).drop pat.length)
    else match findSub pat rest with
      | some (bef, aft) => some (c :: bef, aft)
      | none => none

/-- Textually substitute the first occurrence of pat by repl, as the
strstr-plus-sprintf expansion of placeholders in process_line does. -/
def expandVar (pat repl s : List Char) : List Char :=
  match findSub pat s with
  | some (bef, aft) => bef ++ repl ++ aft
  | none => s

/-- Split a string at commas, mirroring the strchr(',') scan that walks
the override-uid field of a configuration line. -/
def splitComma (l : List Char) : List (List Char) :=
  l.foldr
    (fun c acc =>
      if c = ',' then [] :: acc
      else match acc with
        | [] => [[c]]
        | g :: gs => (c :: g) :: gs)
    [[]]

/-! ## Config loader (process_line, pam_namespace.c lines 137-358)

The tokenizer upstream of the checks (comment stripping, whitespace
splitting via strtok_r) is abstracted: process_line receives the list of
whitespace-separated tokens of the already-stripped line.  Everything
from the $HOME swap onward follows the C control flow. -/

/-- Size of the char arrays polydir_s.dir and the instance path template
(PATH_MAX from the headers). -/
def PATH_MAX : Nat := 4096

/-- Mapping of the method keyword, including the degrade of level and
context to USER when context-based instantiation is inactive (the
successive strcmp blocks of process_line). -/
def parseMethod (m : List Char) (ctxtBased : Bool) : Method :=
  if m = ("user".toList) then Method.USER
  else if m = ("tmpdir".toList) then Method.TMPDIR
  else if m = ("tmpfs".toList) then Method.TMPFS
  else if m = ("level".toList) then (if ctxtBased then Method.LEVEL else Method.USER)
  else if m = ("context".toList) then (if ctxtBased then Method.CONTEXT else Method.USER)
  else Method.NONE

/-- Collaborators and flags consulted by process_line: the identity
resolver for override-user names, the context-based-instantiation flag,
and the ignore-config-errors flag. -/
structure ParseEnv where
  resolve : List Char → Option Nat
  ctxtBased : Bool
  ignErr : Bool

/-- Return value of a skipped (rejected) line: zero under
ignore-config-errors, PAM_SERVICE_ERR otherwise (label skipping:). -/
def skipLine (env : ParseEnv) : Nat × Option Polydir :=
  (if env.ignErr then PAM_SUCCESS else PAM_SERVICE_ERR, none)

/-- Parse of the optional override-uid field: a leading tilde sets
exclusive, the rest is comma-split and resolved, unresolved names being
dropped (the count/num_uids bookkeeping nets out to a filterMap). -/
def parseUids (env : ParseEnv) : Option (List Char) → Bool × List Nat
  | none => (false, [])
  | some u =>
    if u.head? = some '~' then (true, (splitComma u.tail).filterMap env.resolve)
    else (false, (splitComma u).filterMap env.resolve)

/-- Validation and append part of process_line, operating on the target
dir and instance path after placeholder expansion (the C locals dir and
the expanded instance path): length checks, method mapping with the
tmpdir template suffix, the absolute-path and dot-dot checks,
override-uid parsing, and the append. -/
def process_line_core (env : ParseEnv) (dir ip meth0 : List Char)
    (uidsTok : Option (List Char)) : Nat × Option Polydir :=
  if PATH_MAX ≤ dir.length ∨ PATH_MAX ≤ ip.length then skipLine env
  else
    let m := parseMethod meth0 env.ctxtBased
    if m = Method.TMPDIR ∧ PATH_MAX - ip.length < 7 then skipLine env
    else
      let ipStored := if m = Method.TMPDIR then ip ++ ("XXXXXX".toList) else ip
      if m = Method.NONE then skipLine env
      else if dir.head? ≠ some '/' ∨ (m ≠ Method.TMPFS ∧ ip.head? ≠ some '/') then
        skipLine env
      else if hasDotDot dir = true ∨ hasDotDot ip = true then skipLine env
      else
        let eu := parseUids env uidsTok
        (PAM_SUCCESS, some ⟨dir, ipStored, m, eu.2, eu.1⟩)

/-- Translation of process_line from the token list on: $HOME swap for
the target dir, $USER and $HOME expansion inside the instance path,
then the validation and append part.  Returns the retval together with
the rule appended to the list, if any. -/
def process_line (env : ParseEnv) (home user : List Char)
    (toks : List (List Char)) : Nat × Option Polydir :=
  match toks with
  | dir0 :: ip0 :: meth0 :: restToks =>
    let dir := if dir0 = ("$HOME".toList) then home else dir0
    let ip := expandVar ("$HOME".toList) home (expandVar ("$USER".toList) user ip0)
    process_line_core env dir ip meth0 restToks.head?
  | _ => skipLine env

/-- Invariant claimed for every rule the loader appends: absolute target
dir without dot-dot, instance path without dot-dot and absolute unless
the method is Tmpfs, and a method other than NONE. -/
def ruleInvariant (p : Polydir) : Prop :=
  p.dir.head? = some '/' ∧ hasDotDot p.dir = false ∧
  hasDotDot p.instPfx = false ∧
  (p.method ≠ Method.TMPFS → p.instPfx.head? = some '/') ∧
  p.method ≠ Method.NONE

/-! ## MD5 (the digest the instance namer obtains through the MD5
library call in md5hash, pam_namespace.c lines 469-494)

Modelled from the spec: the MD5 library routine itself is not part of
this repository (it comes from the linked crypto library); it is
reproduced here from its standard definition, as the spec describes it
as a deterministic 16-byte digest. -/

/-- Arithmetic is on 32-bit words represented as Nat below 2^32. -/
def U32 : Nat := 4294967296

/-- Rotate a 32-bit word left by n bits. -/
def rotl32 (x n : Nat) : Nat :=
  ((x <<< n) % U32) + ((x % U32) >>> (32 - n))

/-- Round constants of MD5. -/
def md5K : List Nat :=
  [0xd76aa478, 0xe8c7b756, 0x242070db, 0xc1bdceee,
   0xf57c0faf, 0x4787c62a, 0xa8304613, 0xfd469501,
   0x698098d8, 0x8b44f7af, 0xffff5bb1, 0x895cd7be,
   0x6b901122, 0xfd987193, 0xa679438e, 0x49b40821,
   0xf61e2562, 0xc040b340, 0x265e5a51, 0xe9b6c7aa,
   0xd62f105d, 0x02441453, 0xd8a1e681, 0xe7d3fbc8,
   0x21e1cde6, 0xc33707d6, 0xf4d50d87, 0x455a14ed,
   0xa9e3e905, 0xfcefa3f8, 0x676f02d9, 0x8d2a4c8a,
   0xfffa3942, 0x8771f681, 0x6d9d6122, 0xfde5380c,
   0xa4beea44, 0x4bdecfa9, 0xf6bb4b60, 0xbebfbc70,
   0x289b7ec6, 0xeaa127fa, 0xd4ef3085, 0x04881d05,
   0xd9d4d039, 0xe6db99e5, 0x1fa27cf8, 0xc4ac5665,
   0xf4292244, 0x432aff97, 0xab9423a7, 0xfc93a039,
   0x655b59c3, 0x8f0ccc92, 0xffeff47d, 0x85845dd1,
   0x6fa87e4f, 0xfe2ce6e0, 0xa3014314, 0x4e0811a1,
   0xf7537e82, 0xbd3af235, 0x2ad7d2bb, 0xeb86d391]

/-- Per-round left-rotation amounts of MD5. -/
def md5S : List Nat :=
  [7, 12, 17, 22, 7, 12, 17, 22, 7, 12, 17, 22, 7, 12, 17, 22,
   5, 9, 14, 20, 5, 9, 14, 20, 5, 9, 14, 20, 5, 9, 14, 20,
   4, 11, 16, 23, 4, 11, 16, 23, 4, 11, 16, 23, 4, 11, 16, 23,
   6, 10, 15, 21, 6, 10, 15, 21, 6, 10, 15, 21, 6, 10, 15, 21]

/-- Nonlinear function of rounds 0-15. -/
def md5F (b c d : Nat) : Nat := (b &&& c) ||| ((b ^^^ 4294967295) &&& d)

/-- Nonlinear function of rounds 16-31. -/
def md5G (b c d : Nat) : Nat := (d &&& b) ||| ((d ^^^ 4294967295) &&& c)

/-- Nonlinear function of rounds 32-47. -/
def md5H (b c d : Nat) : Nat := b ^^^ c ^^^ d

/-- Nonlinear function of rounds 48-63. -/
def md5I (b c d : Nat) : Nat := c ^^^ (b ||| (d ^^^ 4294967295))

/-- Running state of the digest. -/
structure MD5St where
  a : Nat
  b : Nat
  c : Nat
  d : Nat
deriving DecidableEq, Repr

/-- Little-endian byte decomposition of a word, cnt bytes. -/
def leBytes : Nat → Nat → List Nat
  | 0, _ => []
  | cnt + 1, n => (n % 256) :: leBytes cnt (n / 256)

/-- Little-endian packing of a byte stream into 32-bit words. -/
def bytesToWords : List Nat → List Nat
  | b0 :: b1 :: b2 :: b3 :: rest =>
    (b0 % 256 + 256 * (b1 % 256) + 65536 * (b2 % 256) + 16777216 * (b3 % 256))
      :: bytesToWords rest
  | _ => []

/-- Merkle-Damgard padding: a 0x80 byte, zeros to 56 mod 64, then the
bit length in 8 little-endian bytes. -/
def md5pad (msg : List Nat) : List Nat :=
  msg ++ [128] ++ List.replicate ((119 - msg.length % 64) % 64) 0
      ++ leBytes 8 (msg.length * 8)

/-- Split the padded stream into 64-byte blocks. -/
def chunk64 : List Nat → List (List Nat)
  | [] => []
  | b :: rest => ((b :: rest).take 64) :: chunk64 (rest.drop 63)
termination_by l => l.length
decreasing_by
  simp only [List.length_drop, List.length_cons]
  omega

/-- One MD5 round applied to the state, i being the round number and M
the sixteen words of the block. -/
def md5round (M : List Nat) (st : MD5St) (i : Nat) : MD5St :=
  let fg : Nat × Nat :=
    if i < 16 then (md5F st.b st.c st.d, i)
    else if i < 32 then (md5G st.b st.c st.d, (5 * i + 1) % 16)
    else if i < 48 then (md5H st.b st.c st.d, (3 * i + 5) % 16)
    else (md5I st.b st.c st.d, (7 * i) % 16)
  let f := (fg.1 + st.a + md5K.getD i 0 + M.getD fg.2 0) % U32
  ⟨st.d, (st.b + rotl32 f (md5S.getD i 0)) % U32, st.b, st.c⟩

/-- Digest one 64-byte block into the state. -/
def md5block (st : MD5St) (blk : List Nat) : MD5St :=
  let M := bytesToWords blk
  let r := (List.range 64).foldl (md5round M) st
  ⟨(st.a + r.a) % U32, (st.b + r.b) % U32, (st.c + r.c) % U32, (st.d + r.d) % U32⟩

/-- MD5 digest of a byte stream: sixteen bytes. -/
def md5 (msg : List Nat) : List Nat :=
  let fin := (chunk64 (md5pad msg)).foldl md5block
    ⟨0x67452301, 0xefcdab89, 0x98badcfe, 0x10325476⟩
  leBytes 4 fin.a ++ leBytes 4 fin.b ++ leBytes 4 fin.c ++ leBytes 4 fin.d

/-! ## Instance namer (md5hash and poly_name, lines 469-494 and 597-702) -/

/-- Lowercase hex digit of a value below 16, as the %02x conversion
produces. -/
def hexDigit (n : Nat) : Char :=
  if n < 10 then Char.ofNat (48 + n) else Char.ofNat (87 + n)

/-- Two hex characters of one byte (snprintf(to, 3, "%02x", byte)). -/
def byteHex (b : Nat) : List Char := [hexDigit ((b % 256) / 16), hexDigit (b % 16)]

/-- Hex rendering of a byte list, as the loop over the digest does. -/
def hexOfBytes : List Nat → List Char
  | [] => []
  | b :: rest => byteHex b ++ hexOfBytes rest

/-- Translation of md5hash: digest the instance name and render the
sixteen digest bytes as thirty-two hex characters. -/
def md5hash (name : List Char) : List Char :=
  hexOfBytes (md5 (name.map (fun c => c.toNat % 256)))

/-- Maximum length of an instance-directory name component
(NAMESPACE_MAX_DIR_LEN from the headers). -/
def NAMESPACE_MAX_DIR_LEN : Nat := 80

/-- Hash postprocessing of the computed instance name, pam_namespace.c
lines 665-683: under the gen_hash flag, or when the name is longer than
NAMESPACE_MAX_DIR_LEN, hash it; gen_hash replaces the name by the hash,
otherwise the name is truncated and the hash appended after an
underscore (the asprintf with a %.*s precision). -/
def poly_post (genHash : Bool) (name : List Char) : List Char :=
  if genHash || decide (NAMESPACE_MAX_DIR_LEN < name.length) then
    let hash := md5hash name
    if genHash then hash
    else name.take (NAMESPACE_MAX_DIR_LEN - 1 - hash.length) ++ '_' :: hash
  else name

/-- Translation of poly_name: the instance leaf name per method.  USER
takes the session user name; LEVEL and CONTEXT take the raw security
context (computed by the external security-context provider, passed
here as an oracle) joined to the user name; TMPDIR and TMPFS return the
empty name at once, before the hash postprocessing; NONE fails. -/
def poly_name (p : Polydir) (user : List Char) (genHash : Bool)
    (rawcon : Option (List Char)) : Option (List Char) :=
  match p.method with
  | Method.USER => some (poly_post genHash user)
  | Method.LEVEL | Method.CONTEXT =>
    match rawcon with
    | none => none
    | some rc => some (poly_post genHash (rc ++ '_' :: user))
  | Method.TMPDIR => some []
  | Method.TMPFS => some []
  | Method.NONE => none

/-! ## Init hook runner (inst_init, pam_namespace.c lines 759-819) -/

/-- Test whether a wait status denotes a normal exit,
glibc WIFEXITED: the low seven bits are zero. -/
def wifexited (s : Nat) : Bool := s % 128 == 0

/-- Value of a signed char holding the low byte of n. -/
def signedChar (n : Nat) : Int :=
  if n % 256 < 128 then ((n % 256 : Nat) : Int) else ((n % 256 : Nat) : Int) - 256

/-- Test whether a wait status denotes death by signal, glibc
WIFSIGNALED: the signed char holding the low seven bits plus one,
shifted right once, is positive. -/
def wifsignaled (s : Nat) : Bool := 0 < signedChar (s % 128 + 1) / 2

/-- Exit code carried by a normal-exit wait status (WEXITSTATUS). -/
def wexitstatus (s : Nat) : Nat := (s / 256) % 256

/-- Outcomes of the external effects of inst_init: the SIGCHLD
disposition change, the two access() probes of the well-known script,
fork, waitpid (after its EINTR retries), and the resulting wait status. -/
structure InitEnv where
  signalOk : Bool
  scriptExists : Bool
  scriptExecutable : Bool
  forkOk : Bool
  waitOk : Bool
  status : Nat
deriving DecidableEq, Repr

/-- Translation of inst_init, the parent side: a missing script is
skipped, a present non-executable script is an error, and the child is
waited for, the status check being literally the C condition
(not WIFEXITED, or WIFSIGNALED). -/
def inst_init (env : InitEnv) : Nat :=
  if !env.signalOk then PAM_SESSION_ERR
  else if env.scriptExists then
    if !env.scriptExecutable then PAM_SESSION_ERR
    else if !env.forkOk then PAM_SESSION_ERR
    else if !env.waitOk then PAM_SESSION_ERR
    else if !(wifexited env.status) || wifsignaled env.status then PAM_SESSION_ERR
    else PAM_SUCCESS
  else PAM_SUCCESS

/-! ## Directory materializer (create_dirs, pam_namespace.c lines
824-956, the build without SELinux support) -/

/-- Attributes of a file-system object as stat reports them. -/
structure FStat where
  isDir : Bool
  uid : Nat
  gid : Nat
  mode : Nat
deriving DecidableEq, Repr

/-- Outcomes of the external effects of create_dirs: the stat of the
directory being polyinstantiated, the instance-parent check, the
pre-existing instance directory if any (mkdir then fails with EEXIST),
the other failure modes of mkdir and mkdtemp, the open of the created
directory, its fstat result, fchown and fchmod, and the init hook keyed
by the newly-created flag. -/
structure CreateEnv where
  origStat : Option FStat
  parentOk : Bool
  existing : Option FStat
  mkdirFailOther : Bool
  mkdtempOk : Bool
  openOk : Bool
  fstatOk : Bool
  newStat : FStat
  fchownOk : Bool
  fchmodOk : Bool
  instInit : Bool → Nat

/-- Result of create_dirs: the return code, the state of the instance
directory afterwards (none when absent or removed again), and whether
this call created it. -/
structure CreateRes where
  retval : Nat
  final : Option FStat
  created : Bool
deriving DecidableEq, Repr

/-- Steps after the instance directory was created this call: open a
descriptor to it (all later attribute operations go through the
descriptor), fstat it, align owner and group with the original
directory when they differ, set its permission bits to the original's
low twelve mode bits, and run the init hook with newdir set; every
failure removes the just-created directory. -/
def afterCreate (ost : FStat) (env : CreateEnv) : CreateRes :=
  if !env.openOk then ⟨PAM_SESSION_ERR, none, true⟩
  else if !env.fstatOk then ⟨PAM_SESSION_ERR, none, true⟩
  else if (env.newStat.uid ≠ ost.uid ∨ env.newStat.gid ≠ ost.gid) ∧ ¬env.fchownOk then
    ⟨PAM_SESSION_ERR, none, true⟩
  else if !env.fchmodOk then ⟨PAM_SESSION_ERR, none, true⟩
  else ⟨env.instInit true, some ⟨true, ost.uid, ost.gid, ost.mode % 4096⟩, true⟩

/-- Translation of create_dirs: stat the original directory and require
it to be a directory, check the instance parent, then create the
instance directory (mkdtemp for TMPDIR, mkdir otherwise; an EEXIST from
mkdir jumps straight to the init hook with newdir clear, reusing the
directory as it is). -/
def create_dirs (meth : Method) (env : CreateEnv) : CreateRes :=
  match env.origStat with
  | none => ⟨PAM_SESSION_ERR, env.existing, false⟩
  | some ost =>
    if !ost.isDir then ⟨PAM_SESSION_ERR, env.existing, false⟩
    else if !env.parentOk then ⟨PAM_SESSION_ERR, env.existing, false⟩
    else if meth = Method.TMPDIR then
      if !env.mkdtempOk then ⟨PAM_SESSION_ERR, none, false⟩
      else afterCreate ost env
    else
      match env.existing with
      | some est => ⟨env.instInit false, some est, false⟩
      | none =>
        if env.mkdirFailOther then ⟨PAM_SESSION_ERR, none, false⟩
        else afterCreate ost env

/-! ## Namespace orchestrator (setup_namespace, pam_namespace.c lines
1153-1304) and TmpDir cleanup (cleanup_tmpdirs, lines 1094-1145)

Rules are numbered by their position in the session list (file order);
observable side effects are recorded as events carrying that index. -/

/-- Unmount-mode selector, enum unmnt_op. -/
inductive UnmntOp where
  | NO_UNMNT
  | UNMNT_REMNT
  | UNMNT_ONLY
deriving DecidableEq, Repr

/-- Observable side effects of the orchestrator on rule number i: the
umount system call on the rule's target dir, the invocation of ns_setup
(instance materialization), the committed bind mount at its end, and
the spawn of the recursive removal of a TmpDir instance directory. -/
inductive Ev where
  | umountDir (i : Nat)
  | nsSetupCall (i : Nat)
  | bindCommit (i : Nat)
  | rmTmpdir (i : Nat)
deriving DecidableEq, Repr

/-- Rule index an event is about. -/
def evIdx : Ev → Nat
  | Ev.umountDir i => i
  | Ev.nsSetupCall i => i
  | Ev.bindCommit i => i
  | Ev.rmTmpdir i => i

/-- Outcomes of the external effects of setup_namespace for rule number
i: the PAM_RUSER item and its pam_get_item return code, the passwd
lookup, the real uid of the process, pam_set_data, unshare, the cwd_in
probe, the umount call and whether its failure errno is EINVAL, the
ns_setup result, whether a TmpDir instance directory of rule i exists
when the cleanup pass runs, and the signal/fork/waitpid outcomes of the
cleanup pass. -/
structure SetupEnv where
  ruserItem : Option (List Char)
  getItemRet : Nat
  pwnam : List Char → Option Nat
  procUid : Nat
  setDataOk : Bool
  unshareOk : Bool
  cwdFail : Nat → Bool
  umountOk : Nat → Bool
  umountEinval : Nat → Bool
  nsSetupRet : Nat → Nat
  tmpdirLeft : Nat → Bool
  cleanupSignalOk : Bool
  cleanupForkOk : Nat → Bool
  cleanupWaitOk : Nat → Bool

/-- Resolution of the requesting identity, pam_namespace.c lines
1166-1177: the PAM_RUSER item resolved through getpwnam when present,
the real uid of the calling process (getuid) otherwise or when the
name does not resolve. -/
def req_uid (e : SetupEnv) : Nat :=
  match e.ruserItem with
  | none => e.procUid
  | some name =>
    if e.getItemRet ≠ PAM_SUCCESS then e.procUid
    else match e.pwnam name with
      | some u => u
      | none => e.procUid

/-- First scan of the rule list, lines 1183-1207: polyinstantiation is
needed as soon as some rule is not overridden for the session uid, or
is overridden but, under an unmount mode other than NO_UNMNT, is not
overridden for the requesting uid. -/
def need_poly_scan (uid req : Nat) (unmnt : UnmntOp) : List Polydir → Bool
  | [] => false
  | p :: rest =>
    if ns_override p uid then
      if unmnt = UnmntOp.NO_UNMNT ∨ ns_override p req then
        need_poly_scan uid req unmnt rest
      else true
    else true

/-- Tail of the per-rule step once ns_setup runs: a success appends the
committed bind mount, a failure carries the ns_setup return code out. -/
def nsPhase (e : SetupEnv) (i : Nat) (evs : List Ev) :
    Sum (List Ev) (Nat × List Ev) :=
  if e.nsSetupRet i = PAM_SUCCESS then
    Sum.inl (evs ++ [Ev.nsSetupCall i, Ev.bindCommit i])
  else Sum.inr (e.nsSetupRet i, evs ++ [Ev.nsSetupCall i])

/-- Processing of one rule in the second loop, lines 1235-1299: skip
when overridden for both identities (or overridden under NO_UNMNT);
otherwise derive the per-rule disposition, run the unmount phase for
the remount and unmount-only dispositions (a cwd_in failure aborts, an
umount failure with an errno other than EINVAL aborts), and run
ns_setup unless the disposition is unmount-only.  inl is a completed
step with its events, inr aborts the loop with a return code. -/
def ruleStep (e : SetupEnv) (uid req : Nat) (unmnt : UnmntOp) (i : Nat)
    (p : Polydir) : Sum (List Ev) (Nat × List Ev) :=
  if ns_override p uid ∧ (unmnt = UnmntOp.NO_UNMNT ∨ ns_override p req) then
    Sum.inl []
  else
    let dirUnmnt := if ns_override p uid then UnmntOp.UNMNT_ONLY else unmnt
    if dirUnmnt = UnmntOp.UNMNT_REMNT ∨ dirUnmnt = UnmntOp.UNMNT_ONLY then
      if e.cwdFail i then Sum.inr (PAM_SESSION_ERR, [])
      else if e.umountOk i || e.umountEinval i then
        if dirUnmnt = UnmntOp.UNMNT_ONLY then Sum.inl [Ev.umountDir i]
        else nsPhase e i [Ev.umountDir i]
      else Sum.inr (PAM_SESSION_ERR, [Ev.umountDir i])
    else nsPhase e i []

/-- Second loop of setup_namespace over the rules from index i on: an
aborting step stops the walk and its code becomes retval, otherwise
the events accumulate and the loop ends with PAM_SUCCESS. -/
def setup_loop (e : SetupEnv) (uid req : Nat) (unmnt : UnmntOp) (i : Nat) :
    List Polydir → Nat × List Ev
  | [] => (PAM_SUCCESS, [])
  | p :: rest =>
    match ruleStep e uid req unmnt i p with
    | Sum.inl evs =>
      let r := setup_loop e uid req unmnt (i + 1) rest
      (r.1, evs ++ r.2)
    | Sum.inr (c, evs) => (c, evs)

/-- Loop of cleanup_tmpdirs from index i on: for each TMPDIR rule whose
instance directory exists, spawn rm -rf on it; a fork failure or a hard
waitpid failure stops the pass (goto out), a bad exit of rm is only
logged. -/
def cleanup_loop (tl fk wk : Nat → Bool) (i : Nat) : List Polydir → List Ev
  | [] => []
  | p :: rest =>
    if p.method = Method.TMPDIR ∧ tl i then
      if fk i then
        if wk i then Ev.rmTmpdir i :: cleanup_loop tl fk wk (i + 1) rest
        else [Ev.rmTmpdir i]
      else []
    else cleanup_loop tl fk wk (i + 1) rest

/-- Translation of cleanup_tmpdirs: set the SIGCHLD disposition (a
failure there skips the walk), then walk the rules. -/
def cleanup_tmpdirs (sig : Bool) (tl fk wk : Nat → Bool)
    (rs : List Polydir) : List Ev :=
  if sig then cleanup_loop tl fk wk 0 rs else []

/-- Result of setup_namespace: the return code, whether unshare
detached the namespace, whether the rule list was published as
session-scoped data, whether it was released instead, the events of the
main loop, and the events of the cleanup pass when one ran. -/
structure SetupRes where
  retval : Nat
  unshared : Bool
  published : Bool
  freedList : Bool
  events : List Ev
  cleanupEvents : Option (List Ev)
deriving DecidableEq, Repr

/-- Translation of setup_namespace: resolve the requesting uid, scan
for necessity; when nothing is needed release the list and succeed
without unshare; otherwise publish the list (a pam_set_data failure is
PAM_SYSTEM_ERR), unshare (a failure clears the published slot again,
libpam running the replaced entry's cleanup, and is PAM_SESSION_ERR),
run the second loop, and on any loop failure run the TmpDir cleanup
pass before returning the error. -/
def setup_namespace (e : SetupEnv) (uid : Nat) (unmnt : UnmntOp)
    (rs : List Polydir) : SetupRes :=
  let req := req_uid e
  if need_poly_scan uid req unmnt rs then
    if !e.setDataOk then ⟨PAM_SYSTEM_ERR, false, false, false, [], none⟩
    else if !e.unshareOk then ⟨PAM_SESSION_ERR, false, false, true, [], none⟩
    else
      let lr := setup_loop e uid req unmnt 0 rs
      ⟨lr.1, true, true, false, lr.2,
        if lr.1 = PAM_SUCCESS then none
        else some (cleanup_tmpdirs e.cleanupSignalOk e.tmpdirLeft
          e.cleanupForkOk e.cleanupWaitOk rs)⟩
  else ⟨PAM_SUCCESS, false, false, true, [], none⟩

/-! ## Session teardown (orig_namespace, lines 1311-1346, and
pam_sm_close_session, lines 1478-1573) -/

/-- Outcomes of the external effects of the teardown pass. -/
structure TeardownEnv where
  umountOk : Nat → Bool
  tmpdirLeft : Nat → Bool
  cleanupSignalOk : Bool
  cleanupForkOk : Nat → Bool
  cleanupWaitOk : Nat → Bool

/-- Unmount loop of orig_namespace from rule index i on: rules
overridden for the session uid are skipped, the others get their target
dir unmounted; the first umount failure returns PAM_SESSION_ERR at
once. -/
def orig_loop (te : TeardownEnv) (uid : Nat) (i : Nat) :
    List Polydir → Nat × List Ev
  | [] => (PAM_SUCCESS, [])
  | p :: rest =>
    if ns_override p uid then orig_loop te uid (i + 1) rest
    else if te.umountOk i then
      let r := orig_loop te uid (i + 1) rest
      (r.1, Ev.umountDir i :: r.2)
    else (PAM_SESSION_ERR, [Ev.umountDir i])

/-- Result of orig_namespace: its return value, the unmount events,
whether the TmpDir cleanup pass ran, and its events. -/
structure OrigRes where
  retval : Nat
  events : List Ev
  cleanupRan : Bool
  cleanupEvents : List Ev
deriving DecidableEq, Repr

/-- Translation of orig_namespace: run the unmount loop; an umount
failure returns from the function immediately, so the TmpDir cleanup
pass runs only when the loop finished, after which zero is returned. -/
def orig_namespace (te : TeardownEnv) (uid : Nat) (rs : List Polydir) : OrigRes :=
  let r := orig_loop te uid 0 rs
  if r.1 = PAM_SUCCESS then
    ⟨PAM_SUCCESS, r.2, true,
      cleanup_tmpdirs te.cleanupSignalOk te.tmpdirLeft te.cleanupForkOk
        te.cleanupWaitOk rs⟩
  else ⟨r.1, r.2, false, []⟩

/-- Outcomes of the external effects of pam_sm_close_session: the
no_unmount_on_close argument, the PAM_USER item with its return code,
the passwd lookup of the session user, the retrieved session-scoped
rule list (none when pam_get_data fails or holds NULL), and the
teardown oracles. -/
structure CloseEnv where
  noUnmountFlag : Bool
  userItem : Option (List Char)
  getUserRet : Nat
  pwnamUid : Option Nat
  getData : Option (List Polydir)
  td : TeardownEnv

/-- Result of pam_sm_close_session: its return value, whether the
session-scoped slot was cleared, and the teardown outcome when the
teardown ran. -/
structure CloseRes where
  retval : Nat
  stateCleared : Bool
  teardown : Option OrigRes

/-- Translation of pam_sm_close_session: under no_unmount_on_close
return success at once; fail when the user cannot be recovered or is
unknown; succeed with nothing to reset when no rule list was published;
otherwise run orig_namespace, clear the slot, and return PAM_SUCCESS
whatever the teardown returned. -/
def pam_sm_close_session (ce : CloseEnv) : CloseRes :=
  if ce.noUnmountFlag then ⟨PAM_SUCCESS, false, none⟩
  else match ce.userItem with
    | none => ⟨PAM_SESSION_ERR, false, none⟩
    | some _ =>
      if ce.getUserRet ≠ PAM_SUCCESS then ⟨PAM_SESSION_ERR, false, none⟩
      else match ce.pwnamUid with
        | none => ⟨PAM_SESSION_ERR, false, none⟩
        | some uid =>
          match ce.getData with
          | none => ⟨PAM_SUCCESS, false, none⟩
          | some rs => ⟨PAM_SUCCESS, true, some (orig_namespace ce.td uid rs)⟩

/-! ## Concrete instances used to exercise the translations -/

/-- Environment with no PAM_RUSER item, real uid 0, and every external
effect succeeding. -/
def eAllOk : SetupEnv :=
  ⟨none, PAM_SUCCESS, fun _ => none, 0, true, true,
   fun _ => false, fun _ => true, fun _ => false, fun _ => PAM_SUCCESS,
   fun _ => false, true, fun _ => true, fun _ => true⟩

/-- Environment in which ns_setup fails for rule 1 and the TmpDir
instance directory of rule 1 exists when the cleanup pass runs. -/
def eC2 : SetupEnv :=
  ⟨none, PAM_SUCCESS, fun _ => none, 0, true, true,
   fun _ => false, fun _ => true, fun _ => false,
   fun i => if i = 1 then PAM_SESSION_ERR else PAM_SUCCESS,
   fun i => i == 1, true, fun _ => true, fun _ => true⟩

/-- Rule 0, processed successfully. -/
def preC2 : List Polydir := [⟨"/a".toList, "/ia".toList, Method.USER, [], false⟩]

/-- Rule 1, a TmpDir rule whose ns_setup fails. -/
def pfC2 : Polydir := ⟨"/b".toList, "/tb".toList, Method.TMPDIR, [], false⟩

/-- Rule 2, never reached. -/
def postC2 : List Polydir := [⟨"/c".toList, "/ic".toList, Method.USER, [], false⟩]

/-- One rule whose override list holds exactly the session uid 1000. -/
def rsC3 : List Polydir :=
  [⟨"/tmp".toList, "/inst".toList, Method.USER, [1000], false⟩]

/-- Teardown environment whose umount calls all fail. -/
def teFail : TeardownEnv :=
  ⟨fun _ => false, fun _ => true, true, fun _ => true, fun _ => true⟩

/-- Teardown environment whose umount calls all succeed. -/
def teOk : TeardownEnv :=
  ⟨fun _ => true, fun _ => true, true, fun _ => true, fun _ => true⟩

/-- One TmpDir rule with an empty override list. -/
def rsC5 : List Polydir := [⟨"/tmp".toList, "/t".toList, Method.TMPDIR, [], false⟩]

/-- Environment whose PAM_RUSER item is present and resolves to uid 42,
the process real uid being 7. -/
def eC6res : SetupEnv :=
  ⟨some ("root".toList), PAM_SUCCESS,
   fun n => if n = ("root".toList) then some 42 else none, 7, true, true,
   fun _ => false, fun _ => true, fun _ => false, fun _ => PAM_SUCCESS,
   fun _ => false, true, fun _ => true, fun _ => true⟩

/-- Materializer environment in which the instance directory already
exists with owner 5, group 7 and mode 0777 while the original directory
is owned by root with mode 0755. -/
def cexEnvC7 : CreateEnv :=
  ⟨some ⟨true, 0, 0, 493⟩, true, some ⟨true, 5, 7, 511⟩, false, true,
   true, true, ⟨true, 0, 0, 256⟩, true, true, fun _ => PAM_SUCCESS⟩

/-- Materializer environment in which the instance directory does not
yet exist and every operation succeeds; the original directory is owned
by 2:3 with mode 0755. -/
def freshEnvC7 : CreateEnv :=
  ⟨some ⟨true, 2, 3, 493⟩, true, none, false, true,
   true, true, ⟨true, 0, 0, 256⟩, true, true, fun _ => PAM_SUCCESS⟩

/-- Identity resolver and flags for a plain configuration line. -/
def envC9 : ParseEnv := ⟨fun _ => none, false, false⟩

/-- Tokens of the line "/tmp /inst user". -/
def toksC9 : List (List Char) := ["/tmp".toList, "/inst".toList, "user".toList]

/-- One USER rule with an empty override list. -/
def rsC10 : List Polydir := [⟨"/tmp".toList, "/i".toList, Method.USER, [], false⟩]

/-- Close-session environment whose rule list is retrieved and whose
teardown unmounts all fail. -/
def ceC10 : CloseEnv :=
  ⟨false, some ("u".toList), PAM_SUCCESS, some 1000, some rsC10, teFail⟩

/-! ## Helper lemmas -/

theorem ns_override_loop_xor (uid : Nat) (excl : Bool) (l : List Nat) :
    ns_override_loop uid excl l = Bool.xor (decide (uid ∈ l)) excl := by
  induction l with
  | nil => simp [ns_override_loop]
  | cons u rest ih =>
    by_cases h : uid = u
    · simp [ns_override_loop, h]
    · simp [ns_override_loop, h, ih]

theorem leBytes_length (cnt n : Nat) : (leBytes cnt n).length = cnt := by
  induction cnt generalizing n with
  | zero => rfl
  | succ k ih => simp [leBytes, ih]

theorem md5_length (msg : List Nat) : (md5 msg).length = 16 := by
  simp [md5, leBytes_length]

theorem hexOfBytes_length (l : List Nat) :
    (hexOfBytes l).length = 2 * l.length := by
  induction l with
  | nil => rfl
  | cons b rest ih =>
    simp [hexOfBytes, byteHex, ih]
    omega

theorem md5hash_length (name : List Char) : (md5hash name).length = 32 := by
  simp [md5hash, hexOfBytes_length, md5_length]

theorem hasDotDot_append (a b : List Char) (hb0 : b.head? ≠ some '.')
    (ha : hasDotDot a = false) (hb : hasDotDot b = false) :
    hasDotDot (a ++ b) = false := by
  induction a with
  | nil => simpa using hb
  | cons c a' ih =>
    simp only [hasDotDot, Bool.or_eq_false_iff, Bool.and_eq_false_iff,
      beq_eq_false_iff_ne, ne_eq] at ha ⊢
    refine ⟨?_, ih ha.2⟩
    cases a' with
    | nil =>
      rcases ha.1 with h | _
      · exact Or.inl h
      · simpa using Or.inr hb0
    | cons d a'' => simpa using ha.1

theorem ruleStep_inl_idx (e : SetupEnv) (uid req : Nat) (unmnt : UnmntOp)
    (i : Nat) (p : Polydir) (evs : List Ev)
    (h : ruleStep e uid req unmnt i p = Sum.inl evs) :
    ∀ ev ∈ evs, evIdx ev = i := by
  simp only [ruleStep, nsPhase, List.cons_append, List.nil_append] at h
  split_ifs at h <;>
    first
    | exact Sum.noConfusion h
    | (injection h with h2
       subst h2
       intro ev hev
       fin_cases hev <;> rfl)

theorem ruleStep_inr_facts (e : SetupEnv) (uid req : Nat) (unmnt : UnmntOp)
    (i : Nat) (p : Polydir) (c : Nat) (evs : List Ev)
    (h : ruleStep e uid req unmnt i p = Sum.inr (c, evs)) :
    c ≠ PAM_SUCCESS ∧ ∀ ev ∈ evs, evIdx ev = i := by
  simp only [ruleStep, nsPhase, List.cons_append, List.nil_append] at h
  split_ifs at h <;>
    first
    | exact Sum.noConfusion h
    | (injection h with h2
       injection h2 with hc hl
       subst hc
       subst hl
       exact ⟨by first | decide | assumption,
              by intro ev hev; fin_cases hev <;> rfl⟩)

theorem setup_loop_cons_inl (e : SetupEnv) (uid req : Nat) (unmnt : UnmntOp)
    (i : Nat) (p : Polydir) (rest : List Polydir) (evs : List Ev)
    (h : ruleStep e uid req unmnt i p = Sum.inl evs) :
    setup_loop e uid req unmnt i (p :: rest) =
      ((setup_loop e uid req unmnt (i + 1) rest).1,
       evs ++ (setup_loop e uid req unmnt (i + 1) rest).2) := by
  simp [setup_loop, h]

theorem setup_loop_cons_inr (e : SetupEnv) (uid req : Nat) (unmnt : UnmntOp)
    (i : Nat) (p : Polydir) (rest : List Polydir) (c : Nat) (evs : List Ev)
    (h : ruleStep e uid req unmnt i p = Sum.inr (c, evs)) :
    setup_loop e uid req unmnt i (p :: rest) = (c, evs) := by
  simp [setup_loop, h]

theorem setup_loop_append (e : SetupEnv) (uid req : Nat) (unmnt : UnmntOp) :
    ∀ (pre : List Polydir) (i : Nat) (rest : List Polydir),
    (∀ j (hj : j < pre.length),
      (ruleStep e uid req unmnt (i + j) (pre.get ⟨j, hj⟩)).isLeft = true) →
    (setup_loop e uid req unmnt i (pre ++ rest)).1 =
      (setup_loop e uid req unmnt (i + pre.length) rest).1 ∧
    ∀ ev ∈ (setup_loop e uid req unmnt i (pre ++ rest)).2,
      evIdx ev < i + pre.length ∨
        ev ∈ (setup_loop e uid req unmnt (i + pre.length) rest).2 := by
  intro pre
  induction pre with
  | nil =>
    intro i rest hpre
    refine ⟨by simp, ?_⟩
    intro ev hev
    right
    simpa using hev
  | cons p pre' ih =>
    intro i rest hpre
    have h0 : (ruleStep e uid req unmnt i p).isLeft = true := by
      have := hpre 0 (by simp)
      simpa using this
    obtain ⟨evs, heq⟩ := Sum.isLeft_iff.mp h0
    rw [List.cons_append,
      setup_loop_cons_inl e uid req unmnt i p (pre' ++ rest) evs heq]
    have hpre' : ∀ j (hj : j < pre'.length),
        (ruleStep e uid req unmnt ((i + 1) + j) (pre'.get ⟨j, hj⟩)).isLeft = true := by
      intro j hj
      have hx := hpre (j + 1) (by simpa using Nat.succ_lt_succ hj)
      have harith : i + (j + 1) = (i + 1) + j := by omega
      rw [harith] at hx
      simpa using hx
    have ihh := ih (i + 1) rest hpre'
    have hlen : i + (p :: pre').length = (i + 1) + pre'.length := by
      simp
      omega
    constructor
    · rw [hlen]
      exact ihh.1
    · intro ev hev
      rw [hlen]
      rcases List.mem_append.mp hev with hev1 | hev2
      · left
        have := ruleStep_inl_idx e uid req unmnt i p evs heq ev hev1
        omega
      · rcases ihh.2 ev hev2 with hlt | hmem
        · left
          exact hlt
        · right
          exact hmem

theorem cleanup_loop_only_rm (tl fk wk : Nat → Bool) :
    ∀ (L : List Polydir) (i : Nat), ∀ ev ∈ cleanup_loop tl fk wk i L,
      ∃ j, ev = Ev.rmTmpdir j := by
  intro L
  induction L with
  | nil =>
    intro i ev hev
    simp [cleanup_loop] at hev
  | cons p rest ih =>
    intro i ev hev
    simp only [cleanup_loop] at hev
    split_ifs at hev
    · rcases List.mem_cons.mp hev with rfl | hev'
      · exact ⟨i, rfl⟩
      · exact ih (i + 1) ev hev'
    · simp at hev
      exact ⟨i, hev⟩
    · simp at hev
    · exact ih (i + 1) ev hev

theorem cleanup_loop_complete (tl fk wk : Nat → Bool)
    (hfk : ∀ j, fk j = true) (hwk : ∀ j, wk j = true) :
    ∀ (L : List Polydir) (i j : Nat) (hj : j < L.length),
    (L.get ⟨j, hj⟩).method = Method.TMPDIR → tl (i + j) = true →
    Ev.rmTmpdir (i + j) ∈ cleanup_loop tl fk wk i L := by
  intro L
  induction L with
  | nil =>
    intro i j hj
    simp at hj
  | cons p rest ih =>
    intro i j hj hm htl
    cases j with
    | zero =>
      simp only [List.get] at hm
      simp only [Nat.add_zero] at htl ⊢
      simp only [cleanup_loop]
      rw [if_pos ⟨hm, htl⟩, if_pos (hfk i), if_pos (hwk i)]
      exact List.mem_cons_self _ _
    | succ j' =>
      have hj' : j' < rest.length := by simpa using hj
      have hx : tl ((i + 1) + j') = true := by
        have harith : (i + 1) + j' = i + (j' + 1) := by omega
        rw [harith]
        exact htl
      have hmem := ih (i + 1) j' hj' (by simpa using hm) hx
      have harith : i + (j' + 1) = (i + 1) + j' := by omega
      rw [harith]
      simp only [cleanup_loop]
      split_ifs with h1 h2 h3
      · exact List.mem_cons_of_mem _ hmem
      · exact absurd (hwk i) h3
      · exact absurd (hfk i) h2
      · exact hmem

theorem cleanup_tmpdirs_only_rm (sig : Bool) (tl fk wk : Nat → Bool)
    (rs : List Polydir) :
    ∀ ev ∈ cleanup_tmpdirs sig tl fk wk rs, ∃ j, ev = Ev.rmTmpdir j := by
  intro ev hev
  unfold cleanup_tmpdirs at hev
  split_ifs at hev
  · exact cleanup_loop_only_rm tl fk wk rs 0 ev hev
  · simp at hev

/-! ## Claim theorems -/

/-- Claim C1: for every polyinstantiation rule and every numeric uid,
ns_override returns the XOR of membership of the uid in the rule's
override uid set with the rule's exclusive flag: with exclusive false it
is true iff the uid is in the set, with exclusive true iff it is not. -/
theorem ns_override_xor (p : Polydir) (uid : Nat) :
    ns_override p uid = Bool.xor (decide (uid ∈ p.uids)) p.exclusive :=
  ns_override_loop_xor uid p.exclusive p.uids

/-- Claim C4: evaluation of the init-hook runner at the failing input:
the well-known script exists and is executable, fork and waitpid
succeed, and the child exits normally with exit code 1 (wait status
0x100, e.g. the child's own exit(1) after a failed execl); the runner
nevertheless returns PAM_SUCCESS, because the status check tests only
WIFEXITED and WIFSIGNALED and never the exit code. -/
theorem inst_init_exit1_accepted :
    inst_init ⟨true, true, true, true, true, 256⟩ = PAM_SUCCESS ∧
    wifexited 256 = true ∧ wexitstatus 256 = 1 := by decide

/-- Claim C6, counterexample: with no PAM_RUSER hint and a calling
process whose real uid is 0, the requesting identity resolves to 0, not
to the session uid (1000 in this scenario): the fallback is getuid, not
the session uid. -/
theorem req_uid_fallback_cex :
    eAllOk.ruserItem = none ∧ req_uid eAllOk = 0 ∧ (0 : Nat) ≠ 1000 := by decide

/-- Claim C6, amended: the requesting-identity uid equals the uid
resolved from the PAM_RUSER hint when the hint is present and resolves
to a known user; when the hint is absent, not readable, or unresolvable
it equals the real uid of the calling process (getuid), which need not
be the session uid. -/
theorem req_uid_spec (e : SetupEnv) :
    (∀ name u, e.ruserItem = some name → e.getItemRet = PAM_SUCCESS →
      e.pwnam name = some u → req_uid e = u) ∧
    (e.ruserItem = none → req_uid e = e.procUid) ∧
    (∀ name, e.ruserItem = some name → e.getItemRet ≠ PAM_SUCCESS →
      req_uid e = e.procUid) ∧
    (∀ name, e.ruserItem = some name → e.getItemRet = PAM_SUCCESS →
      e.pwnam name = none → req_uid e = e.procUid) := by
  refine ⟨?_, ?_, ?_, ?_⟩
  · intro name u h1 h2 h3
    simp [req_uid, h1, h2, h3]
  · intro h1
    simp [req_uid, h1]
  · intro name h1 h2
    simp [req_uid, h1, h2]
  · intro name h1 h2 h3
    simp [req_uid, h1, h2, h3]

theorem req_uid_spec_witness :
    req_uid eC6res = 42 ∧ req_uid eAllOk = eAllOk.procUid :=
  ⟨(req_uid_spec eC6res).1 ("root".toList) 42 rfl rfl (by decide),
   (req_uid_spec eAllOk).2.1 rfl⟩

/-- Claim C5, counterexample: one TmpDir rule not overridden for the
session uid whose umount fails: orig_namespace returns PAM_SESSION_ERR
immediately and the TmpDir cleanup pass does not run, although the
rule's instance directory exists. -/
theorem orig_namespace_no_cleanup_cex :
    orig_namespace teFail 1000 rsC5 =
      ⟨PAM_SESSION_ERR, [Ev.umountDir 0], false, []⟩ := by decide

/-- Claim C5, amended: at session close the TmpDir cleanup pass runs
after the unmount pass only when the unmount pass completes without
failure; when unmounting some rule's target directory fails, further
unmounts are stopped and the error is returned immediately without
running the cleanup pass. -/
theorem orig_namespace_cleanup_gating (te : TeardownEnv) (uid : Nat)
    (rs : List Polydir) :
    ((orig_loop te uid 0 rs).1 = PAM_SUCCESS →
      (orig_namespace te uid rs).cleanupRan = true ∧
      (orig_namespace te uid rs).retval = PAM_SUCCESS) ∧
    ((orig_loop te uid 0 rs).1 ≠ PAM_SUCCESS →
      (orig_namespace te uid rs).cleanupRan = false ∧
      (orig_namespace te uid rs).retval = (orig_loop te uid 0 rs).1 ∧
      (orig_namespace te uid rs).cleanupEvents = []) := by
  constructor
  · intro h
    simp [orig_namespace, h]
  · intro h
    simp [orig_namespace, h]

theorem orig_namespace_cleanup_gating_witness :
    ((orig_namespace teOk 1000 rsC5).cleanupRan = true ∧
      (orig_namespace teOk 1000 rsC5).retval = PAM_SUCCESS) ∧
    ((orig_namespace teFail 1000 rsC5).cleanupRan = false ∧
      (orig_namespace teFail 1000 rsC5).retval = (orig_loop teFail 1000 0 rsC5).1 ∧
      (orig_namespace teFail 1000 rsC5).cleanupEvents = []) :=
  ⟨(orig_namespace_cleanup_gating teOk 1000 rsC5).1 (by decide),
   (orig_namespace_cleanup_gating teFail 1000 rsC5).2 (by decide)⟩

/-- Claim C10: whenever session close retrieves the published rule list
(the no-unmount argument is absent, the user is recovered and known,
and the session-scoped slot holds a list), the entry point returns
PAM_SUCCESS whatever the teardown pass did, and the published state is
cleared afterward; the teardown outcome is exactly that of
orig_namespace and never alters the return value. -/
theorem close_session_success (ce : CloseEnv) (name : List Char) (u : Nat)
    (rs : List Polydir) (h1 : ce.noUnmountFlag = false)
    (h2 : ce.userItem = some name) (h3 : ce.getUserRet = PAM_SUCCESS)
    (h4 : ce.pwnamUid = some u) (h5 : ce.getData = some rs) :
    (pam_sm_close_session ce).retval = PAM_SUCCESS ∧
    (pam_sm_close_session ce).stateCleared = true ∧
    (pam_sm_close_session ce).teardown = some (orig_namespace ce.td u rs) := by
  simp [pam_sm_close_session, h1, h2, h3, h4, h5]

theorem close_session_success_witness :
    (pam_sm_close_session ceC10).retval = PAM_SUCCESS ∧
    (pam_sm_close_session ceC10).stateCleared = true ∧
    (pam_sm_close_session ceC10).teardown =
      some (orig_namespace ceC10.td 1000 rsC10) :=
  close_session_success ceC10 ("u".toList) 1000 rsC10 rfl rfl rfl rfl rfl

/-- Claim C7, counterexample: a USER-method materialization in which
the instance directory already exists owned by 5:7 with mode 0777 while
the original directory is root-owned with mode 0755: create_dirs
succeeds (reusing the directory) yet the final owner 5 differs from the
original owner 0, so not every successful materialization copies the
original directory's owner, group and mode. -/
theorem create_dirs_reuse_attrs_cex :
    create_dirs Method.USER cexEnvC7 =
      ⟨PAM_SUCCESS, some ⟨true, 5, 7, 511⟩, false⟩ ∧ (5 : Nat) ≠ 0 := by decide

/-- Claim C7, amended: for a rule whose method is neither TmpDir nor
Tmpfs, when the instance directory already exists materialization
proceeds to reuse it without error and without re-creating it, the
directory keeping its existing attributes; when this call newly creates
the directory and every step succeeds, the final owner, group and
permission bits equal those of the original target directory (applied
through the open directory handle). -/
theorem create_dirs_attrs (meth : Method) (env : CreateEnv) (ost : FStat)
    (h1 : env.origStat = some ost) (h2 : ost.isDir = true)
    (h3 : env.parentOk = true) (hm : meth ≠ Method.TMPDIR)
    (hm2 : meth ≠ Method.TMPFS) :
    (∀ est, env.existing = some est →
      create_dirs meth env = ⟨env.instInit false, some est, false⟩) ∧
    (env.existing = none → env.mkdirFailOther = false → env.openOk = true →
      env.fstatOk = true → env.fchownOk = true → env.fchmodOk = true →
      create_dirs meth env =
        ⟨env.instInit true, some ⟨true, ost.uid, ost.gid, ost.mode % 4096⟩, true⟩) := by
  have _ := hm2
  constructor
  · intro est hex
    simp [create_dirs, h1, h2, h3, hm, hex]
  · intro hex hmk hop hfs hcho hchm
    simp [create_dirs, afterCreate, h1, h2, h3, hm, hex, hmk, hop, hfs, hcho, hchm]

theorem create_dirs_attrs_witness :
    create_dirs Method.USER cexEnvC7 =
      ⟨cexEnvC7.instInit false, some ⟨true, 5, 7, 511⟩, false⟩ ∧
    create_dirs Method.USER freshEnvC7 =
      ⟨freshEnvC7.instInit true, some ⟨true, 2, 3, 493 % 4096⟩, true⟩ :=
  ⟨(create_dirs_attrs Method.USER cexEnvC7 ⟨true, 0, 0, 493⟩ rfl rfl rfl
      (by decide) (by decide)).1 ⟨true, 5, 7, 511⟩ rfl,
   (create_dirs_attrs Method.USER freshEnvC7 ⟨true, 2, 3, 493⟩ rfl rfl rfl
      (by decide) (by decide)).2 rfl rfl rfl rfl rfl rfl⟩

/-- Claim C3: when every rule in the list is overridden for the session
uid, and for each rule either the unmount mode is NO_UNMNT or the rule
is also overridden for the requesting uid, setup_namespace releases the
rule list and returns PAM_SUCCESS without calling unshare and without
publishing the list as session-scoped state. -/
theorem setup_namespace_noop (e : SetupEnv) (uid : Nat) (unmnt : UnmntOp)
    (rs : List Polydir)
    (hall : ∀ p ∈ rs, ns_override p uid = true ∧
      (unmnt = UnmntOp.NO_UNMNT ∨ ns_override p (req_uid e) = true)) :
    setup_namespace e uid unmnt rs =
      ⟨PAM_SUCCESS, false, false, true, [], none⟩ := by
  have hscan : need_poly_scan uid (req_uid e) unmnt rs = false := by
    induction rs with
    | nil => simp [need_poly_scan]
    | cons p rest ih =>
      have hp := hall p (by simp)
      have hrest := ih (fun q hq => hall q (by simp [hq]))
      simp [need_poly_scan, hp.1, hp.2, hrest]
  simp [setup_namespace, hscan]

theorem setup_namespace_noop_witness :
    setup_namespace eAllOk 1000 UnmntOp.NO_UNMNT rsC3 =
      ⟨PAM_SUCCESS, false, false, true, [], none⟩ :=
  setup_namespace_noop eAllOk 1000 UnmntOp.NO_UNMNT rsC3 (by decide)

/-- Claim C8: in instance naming, whenever the gen_hash flag is set or
the computed name exceeds NAMESPACE_MAX_DIR_LEN, a 32-hex-character
digest of the name is computed, and the digest is deterministic (equal
names give equal digests); with the flag set the name is replaced
outright by the digest, otherwise the name is truncated and suffixed
with an underscore and the digest, the result filling exactly the
length budget. -/
theorem poly_name_hashing (genHash : Bool) (name : List Char) :
    (md5hash name).length = 32 ∧
    (∀ other, other = name → md5hash other = md5hash name) ∧
    (genHash = true → poly_post genHash name = md5hash name) ∧
    (genHash = false → NAMESPACE_MAX_DIR_LEN < name.length →
      poly_post genHash name =
        name.take (NAMESPACE_MAX_DIR_LEN - 1 - 32) ++ '_' :: md5hash name ∧
      (poly_post genHash name).length = NAMESPACE_MAX_DIR_LEN) := by
  refine ⟨md5hash_length name, fun other h => by rw [h], ?_, ?_⟩
  · intro hg
    simp [poly_post, hg]
  · intro hg hlen
    have heq : poly_post genHash name =
        name.take (NAMESPACE_MAX_DIR_LEN - 1 - 32) ++ '_' :: md5hash name := by
      simp [poly_post, hg, hlen, md5hash_length]
    refine ⟨heq, ?_⟩
    rw [heq]
    have hlen' : 80 < name.length := by
      simpa [NAMESPACE_MAX_DIR_LEN] using hlen
    have htake : (name.take (NAMESPACE_MAX_DIR_LEN - 1 - 32)).length =
        NAMESPACE_MAX_DIR_LEN - 1 - 32 := by
      simp [List.length_take, NAMESPACE_MAX_DIR_LEN]
      omega
    simp [htake, md5hash_length, NAMESPACE_MAX_DIR_LEN]
    omega

theorem poly_name_hashing_witness :
    (md5hash (List.replicate 81 'x')).length = 32 ∧
    poly_post false (List.replicate 81 'x') =
      (List.replicate 81 'x').take (NAMESPACE_MAX_DIR_LEN - 1 - 32) ++
        '_' :: md5hash (List.replicate 81 'x') ∧
    (poly_post false (List.replicate 81 'x')).length = NAMESPACE_MAX_DIR_LEN ∧
    poly_post true (List.replicate 81 'x') = md5hash (List.replicate 81 'x') :=
  ⟨(poly_name_hashing false (List.replicate 81 'x')).1,
   ((poly_name_hashing false (List.replicate 81 'x')).2.2.2 rfl (by decide)).1,
   ((poly_name_hashing false (List.replicate 81 'x')).2.2.2 rfl (by decide)).2,
   (poly_name_hashing true (List.replicate 81 'x')).2.2.1 rfl⟩

theorem process_line_core_invariant (env : ParseEnv) (dir ip meth0 : List Char)
    (uidsTok : Option (List Char)) (r : Nat) (p : Polydir)
    (h : process_line_core env dir ip meth0 uidsTok = (r, some p)) :
    ruleInvariant p := by
  simp only [process_line_core, skipLine] at h
  by_cases c1 : PATH_MAX ≤ dir.length ∨ PATH_MAX ≤ ip.length
  · rw [if_pos c1] at h
    exact Option.noConfusion (congrArg Prod.snd h)
  rw [if_neg c1] at h
  by_cases c2 : parseMethod meth0 env.ctxtBased = Method.TMPDIR ∧
      PATH_MAX - ip.length < 7
  · rw [if_pos c2] at h
    exact Option.noConfusion (congrArg Prod.snd h)
  rw [if_neg c2] at h
  by_cases c3 : parseMethod meth0 env.ctxtBased = Method.NONE
  · rw [if_pos c3] at h
    exact Option.noConfusion (congrArg Prod.snd h)
  rw [if_neg c3] at h
  by_cases c4 : dir.head? ≠ some '/' ∨
      (parseMethod meth0 env.ctxtBased ≠ Method.TMPFS ∧ ip.head? ≠ some '/')
  · rw [if_pos c4] at h
    exact Option.noConfusion (congrArg Prod.snd h)
  rw [if_neg c4] at h
  by_cases c5 : hasDotDot dir = true ∨ hasDotDot ip = true
  · rw [if_pos c5] at h
    exact Option.noConfusion (congrArg Prod.snd h)
  rw [if_neg c5] at h
  have hp : (⟨dir,
      if parseMethod meth0 env.ctxtBased = Method.TMPDIR
        then ip ++ ("XXXXXX".toList) else ip,
      parseMethod meth0 env.ctxtBased,
      (parseUids env uidsTok).2, (parseUids env uidsTok).1⟩ : Polydir) = p := by
    have h2 := congrArg Prod.snd h
    simpa using h2
  subst hp
  push_neg at c4 c5
  obtain ⟨hdir, hip⟩ := c4
  simp only [ruleInvariant]
  refine ⟨hdir, by simpa using c5.1, ?_, ?_, c3⟩
  · by_cases htd : parseMethod meth0 env.ctxtBased = Method.TMPDIR
    · rw [if_pos htd]
      exact hasDotDot_append _ _ (by decide) (by simpa using c5.2) (by decide)
    · rw [if_neg htd]
      simpa using c5.2
  · intro hm
    by_cases htd : parseMethod meth0 env.ctxtBased = Method.TMPDIR
    · rw [if_pos htd]
      have hip' := hip hm
      rcases ip with _ | ⟨c0, iprest⟩
      · simp at hip'
      · simpa using hip'
    · rw [if_neg htd]
      exact hip hm

/-- Claim C9: every rule the config loader appends to the session's
rule list satisfies the parse-time invariant: an absolute target dir
without a dot-dot substring, an instance path without a dot-dot
substring and absolute unless the method is Tmpfs, and a method other
than NONE. -/
theorem process_line_invariant (env : ParseEnv) (home user : List Char)
    (toks : List (List Char)) (r : Nat) (p : Polydir)
    (h : process_line env home user toks = (r, some p)) : ruleInvariant p := by
  rcases toks with _ | ⟨dir0, _ | ⟨ip0, _ | ⟨meth0, restToks⟩⟩⟩ <;>
    simp only [process_line, skipLine] at h
  · exact absurd (congrArg Prod.snd h) (by simp)
  · exact absurd (congrArg Prod.snd h) (by simp)
  · exact absurd (congrArg Prod.snd h) (by simp)
  · exact process_line_core_invariant env _ _ meth0 restToks.head? r p h

theorem process_line_invariant_witness :
    ruleInvariant ⟨"/tmp".toList, "/inst".toList, Method.USER, [], false⟩ :=
  process_line_invariant envC9 ("/h".toList) ("u".toList) toksC9 PAM_SUCCESS
    ⟨"/tmp".toList, "/inst".toList, Method.USER, [], false⟩ (by decide)

/-- Claim C2: when, during session-open setup, every rule before
position k processes without aborting and the rule at position k aborts
(in particular when its ns_setup fails), then setup_namespace returns
that error, no rule after position k is attempted (every recorded event
concerns a rule at or before k, so no unmount, ns_setup call or bind
mount touches a later rule), the bind mounts committed for earlier
rules are left in place (the cleanup pass emits only TmpDir removals,
never an unmount), and a cleanup pass runs that removes the
TmpDir-method instance directories created this call. -/
theorem setup_namespace_rollback (e : SetupEnv) (uid : Nat) (unmnt : UnmntOp)
    (pre post : List Polydir) (pf : Polydir) (c : Nat) (evs : List Ev)
    (hneed : need_poly_scan uid (req_uid e) unmnt (pre ++ pf :: post) = true)
    (hset : e.setDataOk = true) (hunsh : e.unshareOk = true)
    (hpre : ∀ j (hj : j < pre.length),
      (ruleStep e uid (req_uid e) unmnt j (pre.get ⟨j, hj⟩)).isLeft = true)
    (hpf : ruleStep e uid (req_uid e) unmnt pre.length pf = Sum.inr (c, evs)) :
    (setup_namespace e uid unmnt (pre ++ pf :: post)).retval = c ∧
    c ≠ PAM_SUCCESS ∧
    (∀ ev ∈ (setup_namespace e uid unmnt (pre ++ pf :: post)).events,
      evIdx ev ≤ pre.length) ∧
    ∃ cevs,
      (setup_namespace e uid unmnt (pre ++ pf :: post)).cleanupEvents = some cevs ∧
      (∀ ev ∈ cevs, ∃ j, ev = Ev.rmTmpdir j) ∧
      (e.cleanupSignalOk = true → (∀ j, e.cleanupForkOk j = true) →
       (∀ j, e.cleanupWaitOk j = true) →
       ∀ j (hj : j < (pre ++ pf :: post).length),
         ((pre ++ pf :: post).get ⟨j, hj⟩).method = Method.TMPDIR →
         e.tmpdirLeft j = true →
         Ev.rmTmpdir j ∈ cevs) := by
  have hfacts := ruleStep_inr_facts e uid (req_uid e) unmnt pre.length pf c evs hpf
  have hcons := setup_loop_cons_inr e uid (req_uid e) unmnt pre.length pf post c evs hpf
  have hloop := setup_loop_append e uid (req_uid e) unmnt pre 0 (pf :: post)
    (by intro j hj; simpa using hpre j hj)
  rw [Nat.zero_add] at hloop
  rw [hcons] at hloop
  have hret : (setup_loop e uid (req_uid e) unmnt 0 (pre ++ pf :: post)).1 = c :=
    hloop.1
  have hsn : setup_namespace e uid unmnt (pre ++ pf :: post) =
      ⟨c, true, true, false,
       (setup_loop e uid (req_uid e) unmnt 0 (pre ++ pf :: post)).2,
       some (cleanup_tmpdirs e.cleanupSignalOk e.tmpdirLeft e.cleanupForkOk
         e.cleanupWaitOk (pre ++ pf :: post))⟩ := by
    simp only [setup_namespace, hneed, if_true, hset, hunsh, Bool.not_true,
      Bool.false_eq_true, if_false, hret]
    rw [if_neg hfacts.1]
  refine ⟨by rw [hsn], hfacts.1, ?_, ?_⟩
  · intro ev hev
    rw [hsn] at hev
    rcases hloop.2 ev hev with hlt | hmem
    · omega
    · exact le_of_eq (hfacts.2 ev hmem)
  · refine ⟨cleanup_tmpdirs e.cleanupSignalOk e.tmpdirLeft e.cleanupForkOk
      e.cleanupWaitOk (pre ++ pf :: post), by rw [hsn], ?_, ?_⟩
    · exact cleanup_tmpdirs_only_rm _ _ _ _ _
    · intro hsig hfk hwk j hj hm htl
      unfold cleanup_tmpdirs
      rw [if_pos hsig]
      have := cleanup_loop_complete e.tmpdirLeft e.cleanupForkOk e.cleanupWaitOk
        hfk hwk (pre ++ pf :: post) 0 j hj hm (by simpa using htl)
      simpa using this

theorem setup_namespace_rollback_witness :
    (setup_namespace eC2 1000 UnmntOp.NO_UNMNT (preC2 ++ pfC2 :: postC2)).retval =
      PAM_SESSION_ERR ∧
    (∀ ev ∈ (setup_namespace eC2 1000 UnmntOp.NO_UNMNT
        (preC2 ++ pfC2 :: postC2)).events, evIdx ev ≤ preC2.length) ∧
    ∃ cevs, (setup_namespace eC2 1000 UnmntOp.NO_UNMNT
        (preC2 ++ pfC2 :: postC2)).cleanupEvents = some cevs ∧
      Ev.rmTmpdir 1 ∈ cevs := by
  have h := setup_namespace_rollback eC2 1000 UnmntOp.NO_UNMNT preC2 postC2 pfC2
    PAM_SESSION_ERR [Ev.nsSetupCall 1] (by decide) rfl rfl
    (by decide) (by decide)
  obtain ⟨h1, _, h3, cevs, h4, _, h6⟩ := h
  exact ⟨h1, h3, cevs, h4,
    h6 rfl (fun _ => rfl) (fun _ => rfl) 1 (by decide) (by decide) (by decide)⟩

end PamNs
